import Mathlib

/-!
Verification development for the golio Riot API client library.

The development shallowly embeds the request pipeline of `src/riot/riot_api.go`
(`doRequest`, `getInto`) and the pagination streamer of the match client
(`ListStream`, `src/unnamed/part_002`).  The HTTP transport (`internal.Doer`)
is modelled as a scripted list of responses consumed in order, one entry per
`Do` invocation; side effects of a call (seconds slept, number of transport
attempts, number of `doRequest` invocations) are recorded in an explicit trace.
-/

namespace Golio

/-- An HTTP response as `doRequest` observes it: the numeric status code, the
value of the `Retry-After` header (`Header.Get` yields `""` when absent), and
the body text consumed by the JSON decoder. -/
structure HttpResponse where
  statusCode : Nat
  retryAfter : String
  body : String
deriving DecidableEq, Repr

/-- One result of `internal.Doer.Do`: either a response or a transport-level
error (tagged by an opaque number so distinct errors stay distinct). -/
inductive DoResult where
  | ok (resp : HttpResponse)
  | err (tag : Nat)
deriving DecidableEq, Repr

/-- The errors `doRequest`/`getInto` can return.  `notFound` and
`serviceUnavailable` are the entries of the api package's status table used by
this repository's tests; `apiError` is the literal `api.Error` struct built in
`doRequest` for unmapped statuses; `transport` wraps an error from `Do`;
`atoiFailure` is a `strconv.Atoi` parse error on `Retry-After`; `eofSentinel`
stands for `io.EOF`, the end-of-stream marker. -/
inductive ReqError where
  | notFound
  | serviceUnavailable
  | apiError (message : String) (statusCode : Nat)
  | transport (tag : Nat)
  | atoiFailure (s : String)
  | eofSentinel
deriving DecidableEq, Repr

/-- Modelled from the spec: the fixed status-to-error table
(`api.StatusToError`, in the api package, which is not under `src/`).  The
spec's error taxonomy maps status 404 to NotFound and status 503 to
ServiceUnavailable; the tests under `src/` confirm both entries and confirm
that 999 is absent. -/
def StatusToError (code : Nat) : Option ReqError :=
  if code = 404 then some ReqError.notFound
  else if code = 503 then some ReqError.serviceUnavailable
  else none

/-- Decimal value of a digit list (used only on all-digit lists). -/
def digitsToNat (l : List Char) : Nat :=
  l.foldl (fun acc c => acc * 10 + (c.toNat - 48)) 0

/-- Model of Go's `strconv.Atoi`: an optional single leading sign followed by
one or more decimal digits; anything else is a parse error (`none`). -/
def atoi (s : String) : Option Int :=
  let core : List Char → Option Nat := fun l =>
    if l ≠ [] ∧ l.all Char.isDigit then some (digitsToNat l) else none
  match s.data with
  | '+' :: rest => (core rest).map Int.ofNat
  | '-' :: rest => (core rest).map (fun n => -(n : Int))
  | l => (core l).map Int.ofNat

deriving instance DecidableEq for Except

/-- Result of one call to `doRequest`: the returned value or error, together
with the trace of its side effects — the seconds slept (in order), the number
of `Do` transport invocations, and the number of `doRequest` invocations
(initial call included). -/
structure ReqResult where
  outcome : Except ReqError HttpResponse
  sleeps : List Int
  doCalls : Nat
  invocations : Nat
deriving DecidableEq, Repr

/-- The status handling at the end of `doRequest` (`riot_api.go:616-627`): a
status outside 200-299 is looked up in `api.StatusToError`, an absent code
becomes an `api.Error` with message "unknown error reason" and the raw code;
a 2xx response is returned unchanged. -/
def statusToOutcome (resp : HttpResponse) : Except ReqError HttpResponse :=
  if resp.statusCode < 200 ∨ 299 < resp.statusCode then
    Except.error
      (match StatusToError resp.statusCode with
       | some e => e
       | none => ReqError.apiError "unknown error reason" resp.statusCode)
  else Except.ok resp

/-- Embedding of `Client.doRequest` (`riot_api.go:580-628`) against a scripted
transport.  Each `Do` consumes the next list entry (an exhausted script is a
transport error, a case no claim exercises).  On a 503 the code sleeps one
second and issues exactly one more `Do`; the replacement response then flows
into the 429 check and the status handling.  On a 429 the `Retry-After` header
is parsed with `strconv.Atoi` (a parse failure is returned as the error),
the code sleeps that many seconds and re-invokes `doRequest` on the rest of
the script.  `newRequest` cannot fail for the fixed methods and well-formed
URLs this client builds, so request construction is not modelled as fallible.
The `method` and `endpoint` arguments do not influence any branch, exactly as
in the source, where they only shape the URL. -/
def doRequest (method endpoint : String) : List DoResult → ReqResult
  | [] => ⟨Except.error (ReqError.transport 0), [], 1, 1⟩
  | DoResult.err t :: _ => ⟨Except.error (ReqError.transport t), [], 1, 1⟩
  | DoResult.ok resp :: rest =>
    if resp.statusCode = 503 then
      match rest with
      | [] => ⟨Except.error (ReqError.transport 0), [1], 2, 1⟩
      | DoResult.err t :: _ => ⟨Except.error (ReqError.transport t), [1], 2, 1⟩
      | DoResult.ok resp2 :: rest2 =>
        if resp2.statusCode = 429 then
          match atoi resp2.retryAfter with
          | none => ⟨Except.error (ReqError.atoiFailure resp2.retryAfter), [1], 2, 1⟩
          | some s =>
            let r := doRequest method endpoint rest2
            ⟨r.outcome, 1 :: s :: r.sleeps, 2 + r.doCalls, 1 + r.invocations⟩
        else ⟨statusToOutcome resp2, [1], 2, 1⟩
    else
      if resp.statusCode = 429 then
        match atoi resp.retryAfter with
        | none => ⟨Except.error (ReqError.atoiFailure resp.retryAfter), [], 1, 1⟩
        | some s =>
          let r := doRequest method endpoint rest
          ⟨r.outcome, s :: r.sleeps, 1 + r.doCalls, 1 + r.invocations⟩
      else ⟨statusToOutcome resp, [], 1, 1⟩

/-- The "normal" handling a response receives when it is not a 503 (and after
the one 503 retry): the rate-limit branch and the status mapping of
`doRequest`, factored out verbatim so that theorems can state that the second
attempt after a 503 falls through to exactly this handling. -/
def handleResponse (method endpoint : String) (resp : HttpResponse)
    (rest : List DoResult) : ReqResult :=
  if resp.statusCode = 429 then
    match atoi resp.retryAfter with
    | none => ⟨Except.error (ReqError.atoiFailure resp.retryAfter), [], 1, 1⟩
    | some s =>
      let r := doRequest method endpoint rest
      ⟨r.outcome, s :: r.sleeps, 1 + r.doCalls, 1 + r.invocations⟩
  else ⟨statusToOutcome resp, [], 1, 1⟩

/-- Embedding of `Client.getInto` (`riot_api.go:511-527`) for a GET: execute
the request, propagate its error unchanged, otherwise decode the response body
into the target and propagate any decode error unchanged.  The JSON decoder is
abstracted as a function from the body text to a decoded value or error. -/
def getInto {α : Type} (endpoint : String) (transport : List DoResult)
    (decode : String → Except ReqError α) : Except ReqError α :=
  match (doRequest "GET" endpoint transport).outcome with
  | Except.error e => Except.error e
  | Except.ok resp =>
    match decode resp.body with
    | Except.error e => Except.error e
    | Except.ok v => Except.ok v

/-- Modelled from the spec: a match reference is a plain domain data record
decoded from JSON (the model package with its field list is not under `src/`);
no claim depends on its fields, so a single identifying field suffices. -/
structure MatchReference where
  gameID : Int
deriving DecidableEq, Repr

/-- Modelled from the spec: `MatchFilter` is "a query-parameter bag (begin/end
index, queue, season, champion, date range) with optional fields" whose struct
declaration is not under `src/`.  Field names follow the accesses visible in
`ListStream` (`BeginIndex`, `EndIndex`). -/
structure MatchFilter where
  BeginIndex : Option Nat
  EndIndex : Option Nat
  Queue : Option Nat
  Season : Option Nat
  Champion : Option Nat
  BeginTime : Option Nat
  EndTime : Option Nat
deriving DecidableEq, Repr

/-- `MatchStreamValue` (`src/unnamed/part_002:44-47`): the value sent on the
stream channel, an embedded match-reference pointer and an error slot, each
nil-able and modelled as an option. -/
structure MatchStreamValue where
  matchReference : Option MatchReference
  error : Option ReqError
deriving DecidableEq, Repr

/-- The item emission `MatchStreamValue{MatchReference: match}`. -/
def itemValue (m : MatchReference) : MatchStreamValue := ⟨some m, none⟩

/-- The terminal emission `MatchStreamValue{Error: err}`. -/
def errorValue (e : ReqError) : MatchStreamValue := ⟨none, some e⟩

/-- Observable behaviour of one `ListStream` producer: the values sent on the
channel, in order, and the filter passed to each `List` page fetch, in order
(so `calls.length` is the number of page fetches). -/
structure StreamRun where
  emitted : List MatchStreamValue
  calls : List MatchFilter
deriving DecidableEq, Repr

/-- The producer loop of `ListStream` (`src/unnamed/part_002:54-76`).  The Go
code stores pointers to the loop variables `start` and `end` into the filter
once before the loop, so every `List` call observes the current window; the
embedding rebuilds the filter with the current window each iteration, which is
observationally the same.  Both variables advance by 100 after a full page.
The loop runs until a short page or a fetch error; `fuel` bounds the number of
iterations the embedding unfolds (the theorems require enough fuel for the
runs they describe). -/
def listStreamLoop (listF : MatchFilter → Except ReqError (List MatchReference))
    (filter : MatchFilter) : Nat → Nat → Nat → StreamRun
  | 0, _, _ => ⟨[], []⟩
  | fuel + 1, start, fin =>
    let f := { filter with BeginIndex := some start, EndIndex := some fin }
    match listF f with
    | Except.error e => ⟨[errorValue e], [f]⟩
    | Except.ok page =>
      if page.length < 100 then
        ⟨page.map itemValue ++ [errorValue ReqError.eofSentinel], [f]⟩
      else
        let r := listStreamLoop listF filter fuel (start + 100) (fin + 100)
        ⟨page.map itemValue ++ r.emitted, f :: r.calls⟩

/-- `ListStream` (`src/unnamed/part_002:51-78`): the producer starts with
`start = 0`, `end = 100`. -/
def ListStream (listF : MatchFilter → Except ReqError (List MatchReference))
    (filter : MatchFilter) (fuel : Nat) : StreamRun :=
  listStreamLoop listF filter fuel 0 100

/-- Modelled from the spec: the windowed list endpoint of the upstream API,
holding the account's full match history and answering each fetch with the
half-open slice `[BeginIndex, EndIndex)` of it.  This is the environment in
which the claim "all page fetches succeed" is stated; it is not repository
code. -/
def serverList (all : List MatchReference) (f : MatchFilter) :
    Except ReqError (List MatchReference) :=
  match f.BeginIndex, f.EndIndex with
  | some b, some e => Except.ok ((all.drop b).take (e - b))
  | _, _ => Except.error (ReqError.transport 0)

/-- A caller-supplied filter with every field set, used in concrete checks. -/
def sampleFilter : MatchFilter :=
  ⟨some 7, some 9, some 420, some 13, some 64, some 1000, some 2000⟩

/-- A concrete decoder used in the closed instance of the round-trip theorem:
decodes the body "7" to the number 7 and fails on anything else. -/
def witnessDecode (s : String) : Except ReqError Nat :=
  if s = "7" then Except.ok 7 else Except.error (ReqError.transport 1)

/-- The full first page served in concrete checks of the streamer. -/
def witnessPage : List MatchReference := (List.range 100).map fun i => ⟨i⟩

/-- A concrete fetcher: succeeds with a full page on the first window and
fails on every other window. -/
def witnessListF (f : MatchFilter) : Except ReqError (List MatchReference) :=
  if f.BeginIndex = some 0 then Except.ok witnessPage
  else Except.error (ReqError.transport 5)

/-- A fetcher that always fails, used in concrete checks. -/
def failureListF (_f : MatchFilter) : Except ReqError (List MatchReference) :=
  Except.error (ReqError.transport 0)

/-- A response with a 2xx status at the head of the script is returned as the
success value at once: no sleep, one transport attempt, one invocation. -/
lemma doRequest_2xx (method endpoint : String) (resp : HttpResponse)
    (rest : List DoResult) (h2 : 200 ≤ resp.statusCode) (h3 : resp.statusCode ≤ 299) :
    doRequest method endpoint (DoResult.ok resp :: rest)
      = ⟨Except.ok resp, [], 1, 1⟩ := by
  have h503 : ¬ resp.statusCode = 503 := by omega
  have h429 : ¬ resp.statusCode = 429 := by omega
  have hrange : ¬ (resp.statusCode < 200 ∨ 299 < resp.statusCode) := by omega
  rw [doRequest.eq_def]
  simp [statusToOutcome, h503, h429, hrange]

/-- C1: a request whose first transport attempt returns status 503 and whose
single retried attempt returns a 2xx status returns the success response,
after exactly one retry sleep of one second and exactly one extra transport
attempt (two `Do` calls in total, one `doRequest` invocation). -/
theorem retry503_success (method endpoint : String) (r1 r2 : HttpResponse)
    (rest : List DoResult) (h1 : r1.statusCode = 503)
    (h2 : 200 ≤ r2.statusCode) (h3 : r2.statusCode ≤ 299) :
    doRequest method endpoint (DoResult.ok r1 :: DoResult.ok r2 :: rest)
      = ⟨Except.ok r2, [1], 2, 1⟩ := by
  have h429 : ¬ r2.statusCode = 429 := by omega
  have hrange : ¬ (r2.statusCode < 200 ∨ 299 < r2.statusCode) := by omega
  simp [doRequest, statusToOutcome, h1, h429, hrange]

theorem retry503_success_witness :
    (503 : Nat) = 503 ∧ 200 ≤ 200 ∧ 200 ≤ 299 ∧
    doRequest "GET" "e" [DoResult.ok ⟨503, "", ""⟩, DoResult.ok ⟨200, "", "{}"⟩]
      = ⟨Except.ok ⟨200, "", "{}"⟩, [1], 2, 1⟩ :=
  ⟨rfl, by decide, by decide,
   retry503_success "GET" "e" ⟨503, "", ""⟩ ⟨200, "", "{}"⟩ [] rfl (by decide) (by decide)⟩

/-- C2: after a first 503 the retried attempt's response receives exactly the
normal (non-503) handling — one extra `Do`, a prepended 1-second sleep, and no
further unavailability retry; in particular a second 503 yields the
ServiceUnavailable error with exactly two transport attempts. -/
theorem retry503_fallthrough (method endpoint : String) (r1 r2 : HttpResponse)
    (rest : List DoResult) (h1 : r1.statusCode = 503) :
    doRequest method endpoint (DoResult.ok r1 :: DoResult.ok r2 :: rest)
      = ⟨(handleResponse method endpoint r2 rest).outcome,
         1 :: (handleResponse method endpoint r2 rest).sleeps,
         1 + (handleResponse method endpoint r2 rest).doCalls,
         (handleResponse method endpoint r2 rest).invocations⟩
    ∧ (r2.statusCode = 503 →
        doRequest method endpoint (DoResult.ok r1 :: DoResult.ok r2 :: rest)
          = ⟨Except.error ReqError.serviceUnavailable, [1], 2, 1⟩) := by
  constructor
  · by_cases h429 : r2.statusCode = 429
    · simp only [doRequest, handleResponse, h1, h429, if_true, if_pos]
      cases hat : atoi r2.retryAfter with
      | none => simp
      | some s => simp; omega
    · simp [doRequest, handleResponse, h1, h429]
  · intro h2
    have h429 : ¬ r2.statusCode = 429 := by omega
    simp [doRequest, statusToOutcome, StatusToError, h1, h2, h429]

theorem retry503_fallthrough_witness :
    (503 : Nat) = 503 ∧
    doRequest "GET" "e" [DoResult.ok ⟨503, "a", "b"⟩, DoResult.ok ⟨503, "c", "d"⟩]
      = ⟨(handleResponse "GET" "e" ⟨503, "c", "d"⟩ []).outcome,
         1 :: (handleResponse "GET" "e" ⟨503, "c", "d"⟩ []).sleeps,
         1 + (handleResponse "GET" "e" ⟨503, "c", "d"⟩ []).doCalls,
         (handleResponse "GET" "e" ⟨503, "c", "d"⟩ []).invocations⟩
    ∧ ((503 : Nat) = 503 →
        doRequest "GET" "e" [DoResult.ok ⟨503, "a", "b"⟩, DoResult.ok ⟨503, "c", "d"⟩]
          = ⟨Except.error ReqError.serviceUnavailable, [1], 2, 1⟩) :=
  ⟨rfl,
   (retry503_fallthrough "GET" "e" ⟨503, "a", "b"⟩ ⟨503, "c", "d"⟩ [] rfl).1,
   (retry503_fallthrough "GET" "e" ⟨503, "a", "b"⟩ ⟨503, "c", "d"⟩ [] rfl).2⟩

/-- C3: a request whose first attempt returns 429 with `Retry-After: 2` and
whose re-invocation's attempt returns a 2xx status returns the success
response after a single 2-second sleep, with exactly one recursive
re-invocation (two invocations in total) and two transport attempts. -/
theorem retry429_success (method endpoint : String) (r1 r2 : HttpResponse)
    (rest : List DoResult) (h1 : r1.statusCode = 429) (hra : r1.retryAfter = "2")
    (h2 : 200 ≤ r2.statusCode) (h3 : r2.statusCode ≤ 299) :
    doRequest method endpoint (DoResult.ok r1 :: DoResult.ok r2 :: rest)
      = ⟨Except.ok r2, [2], 2, 2⟩ := by
  have h503 : ¬ r1.statusCode = 503 := by omega
  have h503b : ¬ r2.statusCode = 503 := by omega
  have h429b : ¬ r2.statusCode = 429 := by omega
  have hrange : ¬ (r2.statusCode < 200 ∨ 299 < r2.statusCode) := by omega
  have hat : atoi r1.retryAfter = some 2 := by rw [hra]; decide
  have hsucc := doRequest_2xx method endpoint r2 rest h2 h3
  rw [doRequest.eq_def]
  simp [h1, h503, hat, hsucc]

theorem retry429_success_witness :
    (429 : Nat) = 429 ∧ "2" = "2" ∧ 200 ≤ 204 ∧ 204 ≤ 299 ∧
    doRequest "GET" "e" [DoResult.ok ⟨429, "2", ""⟩, DoResult.ok ⟨204, "", "[]"⟩]
      = ⟨Except.ok ⟨204, "", "[]"⟩, [2], 2, 2⟩ :=
  ⟨rfl, rfl, by decide, by decide,
   retry429_success "GET" "e" ⟨429, "2", ""⟩ ⟨204, "", "[]"⟩ [] rfl rfl (by decide) (by decide)⟩

/-- C4: a 429 response whose `Retry-After` header does not parse as an integer
makes the call fail immediately with the parse error: no sleep, no further
transport attempt, no re-invocation. -/
theorem retry429_badRetryAfter (method endpoint : String) (r : HttpResponse)
    (rest : List DoResult) (h1 : r.statusCode = 429)
    (h2 : atoi r.retryAfter = none) :
    doRequest method endpoint (DoResult.ok r :: rest)
      = ⟨Except.error (ReqError.atoiFailure r.retryAfter), [], 1, 1⟩ := by
  have h503 : ¬ r.statusCode = 503 := by omega
  rw [doRequest.eq_def]
  simp [h1, h2, h503]

theorem retry429_badRetryAfter_witness :
    (429 : Nat) = 429 ∧ atoi "soon" = none ∧
    doRequest "GET" "e" [DoResult.ok ⟨429, "soon", ""⟩, DoResult.ok ⟨200, "", ""⟩]
      = ⟨Except.error (ReqError.atoiFailure "soon"), [], 1, 1⟩ :=
  ⟨rfl, by decide,
   retry429_badRetryAfter "GET" "e" ⟨429, "soon", ""⟩ [DoResult.ok ⟨200, "", ""⟩] rfl (by decide)⟩

/-- C5: a response with a status outside 200-299 (other than the 503/429
retry statuses) yields the error of the fixed status table, the table miss
being an `api.Error` with message "unknown error reason" and the raw code; in
particular 404 yields NotFound for every method and endpoint, and 999 yields
the generic error carrying 999. -/
theorem statusTableMapping (method endpoint : String) (resp : HttpResponse)
    (rest : List DoResult)
    (hout : resp.statusCode < 200 ∨ 299 < resp.statusCode)
    (h429 : ¬ resp.statusCode = 429) (h503 : ¬ resp.statusCode = 503) :
    (doRequest method endpoint (DoResult.ok resp :: rest)
        = ⟨Except.error
             (match StatusToError resp.statusCode with
              | some e => e
              | none => ReqError.apiError "unknown error reason" resp.statusCode),
           [], 1, 1⟩)
    ∧ (resp.statusCode = 404 →
        doRequest method endpoint (DoResult.ok resp :: rest)
          = ⟨Except.error ReqError.notFound, [], 1, 1⟩)
    ∧ (resp.statusCode = 999 →
        doRequest method endpoint (DoResult.ok resp :: rest)
          = ⟨Except.error (ReqError.apiError "unknown error reason" 999), [], 1, 1⟩) := by
  refine ⟨?_, ?_, ?_⟩
  · rw [doRequest.eq_def]
    simp [statusToOutcome, h429, h503, hout]
  · intro h404
    rw [doRequest.eq_def]
    simp [statusToOutcome, StatusToError, h404]
  · intro h999
    rw [doRequest.eq_def]
    simp [statusToOutcome, StatusToError, h999]

theorem statusTableMapping_witness :
    ((404 : Nat) < 200 ∨ 299 < 404) ∧ ¬ (404 : Nat) = 429 ∧ ¬ (404 : Nat) = 503 ∧
    (doRequest "GET" "e" [DoResult.ok ⟨404, "", ""⟩]
        = ⟨Except.error
             (match StatusToError 404 with
              | some e => e
              | none => ReqError.apiError "unknown error reason" 404),
           [], 1, 1⟩)
    ∧ ((404 : Nat) = 404 →
        doRequest "GET" "e" [DoResult.ok ⟨404, "", ""⟩]
          = ⟨Except.error ReqError.notFound, [], 1, 1⟩) :=
  ⟨by decide, by decide, by decide,
   (statusTableMapping "GET" "e" ⟨404, "", ""⟩ [] (by decide) (by decide) (by decide)).1,
   (statusTableMapping "GET" "e" ⟨404, "", ""⟩ [] (by decide) (by decide) (by decide)).2.1⟩

/-- C8: for a GET whose response is 2xx, `getInto` stores exactly the decoded
value of the response body in the target, and a decode error is propagated
unchanged. -/
theorem getInto_roundtrip {α : Type} (endpoint : String) (resp : HttpResponse)
    (rest : List DoResult) (decode : String → Except ReqError α)
    (h2 : 200 ≤ resp.statusCode) (h3 : resp.statusCode ≤ 299) :
    (∀ v, decode resp.body = Except.ok v →
        getInto endpoint (DoResult.ok resp :: rest) decode = Except.ok v)
    ∧ (∀ e, decode resp.body = Except.error e →
        getInto endpoint (DoResult.ok resp :: rest) decode = Except.error e) := by
  have h503 : ¬ resp.statusCode = 503 := by omega
  have h429 : ¬ resp.statusCode = 429 := by omega
  have hrange : ¬ (resp.statusCode < 200 ∨ 299 < resp.statusCode) := by omega
  have hdo : (doRequest "GET" endpoint (DoResult.ok resp :: rest)).outcome
      = Except.ok resp := by
    rw [doRequest_2xx "GET" endpoint resp rest h2 h3]
  constructor
  · intro v hv
    simp [getInto, hdo, hv]
  · intro e he
    simp [getInto, hdo, he]

theorem getInto_roundtrip_witness :
    200 ≤ 200 ∧ 200 ≤ 299 ∧
    witnessDecode "7" = Except.ok 7 ∧
    getInto "e" [DoResult.ok ⟨200, "", "7"⟩] witnessDecode = Except.ok 7 :=
  ⟨by decide, by decide, by decide,
   (getInto_roundtrip "e" ⟨200, "", "7"⟩ [] witnessDecode (by decide) (by decide)).1
     7 (by decide)⟩

/-- Against the windowed server, a loop started at window base `start` with
a remaining count that is not a multiple of 100 emits exactly the remaining
matches in order followed by one end-of-stream sentinel, using one page fetch
per started block of 100. -/
lemma listStreamLoop_serverList (all : List MatchReference) (filter : MatchFilter) :
    ∀ (fuel start : Nat),
      (all.length - start) % 100 ≠ 0 →
      (all.length - start + 99) / 100 ≤ fuel →
      (listStreamLoop (serverList all) filter fuel start (start + 100)).emitted
          = (all.drop start).map itemValue ++ [errorValue ReqError.eofSentinel]
        ∧ (listStreamLoop (serverList all) filter fuel start (start + 100)).calls.length
          = (all.length - start + 99) / 100 := by
  intro fuel
  induction fuel with
  | zero =>
    intro start hmod hfuel
    exfalso
    omega
  | succ n ih =>
    intro start hmod hfuel
    have hto : start + 100 - start = 100 := by omega
    by_cases hcase : all.length - start < 100
    · have hpage : (all.drop start).take 100 = all.drop start := by
        apply List.take_of_length_le
        rw [List.length_drop]
        omega
      have hlt : (all.drop start).length < 100 := by
        rw [List.length_drop]
        omega
      constructor
      · simp [listStreamLoop, serverList, hto, hpage, hlt, hcase]
      · simp [listStreamLoop, serverList, hto, hpage, hlt, hcase]
        omega
    · have hlen : ((all.drop start).take 100).length = 100 := by
        rw [List.length_take, List.length_drop]
        omega
      have hnl : ¬ ((all.drop start).take 100).length < 100 := by
        rw [hlen]
        omega
      have ihs := ih (start + 100) (by omega) (by omega)
      constructor
      · simp only [listStreamLoop, serverList, hto, hnl, if_false, StreamRun.mk.injEq]
        rw [ihs.1]
        rw [show all.drop (start + 100) = (all.drop start).drop 100 from
              (List.drop_drop 100 start all).symm]
        rw [← List.append_assoc, ← List.map_append, List.take_append_drop]
      · simp only [listStreamLoop, serverList, hto, hnl, if_false, List.length_cons]
        rw [ihs.2]
        omega

/-- C6: when the account's total match count is not a multiple of 100 and all
page fetches succeed (the windowed server answers each fetch with the
requested slice), the stream performs exactly `ceil(count/100)` page fetches,
emits every match exactly once in order, then emits exactly one end-of-stream
sentinel. -/
theorem matchStream_complete (all : List MatchReference) (filter : MatchFilter)
    (fuel : Nat) (hmod : all.length % 100 ≠ 0)
    (hfuel : (all.length + 99) / 100 ≤ fuel) :
    (ListStream (serverList all) filter fuel).emitted
        = all.map itemValue ++ [errorValue ReqError.eofSentinel]
      ∧ (ListStream (serverList all) filter fuel).calls.length
        = (all.length + 99) / 100 := by
  have h := listStreamLoop_serverList all filter fuel 0 (by omega) (by omega)
  simpa [ListStream] using h

theorem matchStream_complete_witness :
    ([⟨1⟩] : List MatchReference).length % 100 ≠ 0
    ∧ (([⟨1⟩] : List MatchReference).length + 99) / 100 ≤ 1
    ∧ (ListStream (serverList [⟨1⟩]) sampleFilter 1).emitted
        = ([⟨1⟩] : List MatchReference).map itemValue
            ++ [errorValue ReqError.eofSentinel]
    ∧ (ListStream (serverList [⟨1⟩]) sampleFilter 1).calls.length
        = (([⟨1⟩] : List MatchReference).length + 99) / 100 :=
  ⟨by decide, by decide,
   (matchStream_complete [⟨1⟩] sampleFilter 1 (by decide) (by decide)).1,
   (matchStream_complete [⟨1⟩] sampleFilter 1 (by decide) (by decide)).2⟩

/-- C7: when the first fetch returns a full page of 100 items and the second
fetch returns an error, the stream emits the 100 items of page one in order,
then exactly one terminal value carrying that error, and performs no further
page fetches. -/
theorem matchStream_pageTwoError
    (listF : MatchFilter → Except ReqError (List MatchReference))
    (filter : MatchFilter) (fuel : Nat) (page1 : List MatchReference)
    (e : ReqError) (hfuel : 2 ≤ fuel)
    (h1 : listF { filter with BeginIndex := some 0, EndIndex := some 100 }
        = Except.ok page1)
    (hlen : page1.length = 100)
    (h2 : listF { filter with BeginIndex := some 100, EndIndex := some 200 }
        = Except.error e) :
    (ListStream listF filter fuel).emitted = page1.map itemValue ++ [errorValue e]
    ∧ (ListStream listF filter fuel).calls.length = 2 := by
  obtain ⟨k, rfl⟩ : ∃ k, fuel = (k + 1) + 1 := ⟨fuel - 2, by omega⟩
  constructor <;> simp [ListStream, listStreamLoop, h1, hlen, h2]

theorem matchStream_pageTwoError_witness :
    2 ≤ 2
    ∧ witnessListF { sampleFilter with BeginIndex := some 0, EndIndex := some 100 }
        = Except.ok witnessPage
    ∧ witnessPage.length = 100
    ∧ witnessListF { sampleFilter with BeginIndex := some 100, EndIndex := some 200 }
        = Except.error (ReqError.transport 5)
    ∧ (ListStream witnessListF sampleFilter 2).emitted
        = witnessPage.map itemValue ++ [errorValue (ReqError.transport 5)]
    ∧ (ListStream witnessListF sampleFilter 2).calls.length = 2 :=
  ⟨by decide, by decide, by decide, by decide,
   (matchStream_pageTwoError witnessListF sampleFilter 2 witnessPage
      (ReqError.transport 5) (by decide) (by decide) (by decide) (by decide)).1,
   (matchStream_pageTwoError witnessListF sampleFilter 2 witnessPage
      (ReqError.transport 5) (by decide) (by decide) (by decide) (by decide)).2⟩

/-- Every value the producer loop emits is either an item emission or a
terminal emission. -/
lemma listStreamLoop_tagged
    (listF : MatchFilter → Except ReqError (List MatchReference))
    (filter : MatchFilter) :
    ∀ (fuel start fin : Nat) (v : MatchStreamValue),
      v ∈ (listStreamLoop listF filter fuel start fin).emitted →
      (∃ m, v = itemValue m) ∨ (∃ e, v = errorValue e) := by
  intro fuel
  induction fuel with
  | zero =>
    intro start fin v hv
    simp [listStreamLoop] at hv
  | succ n ih =>
    intro start fin v hv
    cases hcall : listF { filter with BeginIndex := some start, EndIndex := some fin } with
    | error e =>
      simp [listStreamLoop, hcall] at hv
      exact Or.inr ⟨e, hv⟩
    | ok page =>
      by_cases hlt : page.length < 100
      · simp [listStreamLoop, hcall, hlt] at hv
        rcases hv with ⟨m, _, rfl⟩ | rfl
        · exact Or.inl ⟨m, rfl⟩
        · exact Or.inr ⟨ReqError.eofSentinel, rfl⟩
      · simp [listStreamLoop, hcall, hlt] at hv
        rcases hv with ⟨m, _, rfl⟩ | hrec
        · exact Or.inl ⟨m, rfl⟩
        · exact ih (start + 100) (fin + 100) v hrec

/-- C9: every value emitted on the stream channel populates exactly one of its
two payload fields — items carry a match reference and no error, terminal
values carry an error and no match reference. -/
theorem matchStream_taggedUnion
    (listF : MatchFilter → Except ReqError (List MatchReference))
    (filter : MatchFilter) (fuel : Nat) (v : MatchStreamValue)
    (hv : v ∈ (ListStream listF filter fuel).emitted) :
    (∃ m, v.matchReference = some m ∧ v.error = none)
    ∨ (∃ e, v.matchReference = none ∧ v.error = some e) := by
  rcases listStreamLoop_tagged listF filter fuel 0 100 v hv with ⟨m, rfl⟩ | ⟨e, rfl⟩
  · exact Or.inl ⟨m, rfl, rfl⟩
  · exact Or.inr ⟨e, rfl, rfl⟩

theorem matchStream_taggedUnion_witness :
    errorValue (ReqError.transport 0)
        ∈ (ListStream failureListF sampleFilter 1).emitted
    ∧ ((∃ m, (errorValue (ReqError.transport 0)).matchReference = some m
          ∧ (errorValue (ReqError.transport 0)).error = none)
       ∨ (∃ e, (errorValue (ReqError.transport 0)).matchReference = none
          ∧ (errorValue (ReqError.transport 0)).error = some e)) :=
  ⟨by decide,
   matchStream_taggedUnion failureListF sampleFilter 1
     (errorValue (ReqError.transport 0)) (by decide)⟩

/-- The filters the loop passes to the page fetches form the sequence of
100-wide windows based at `start`, with the caller's other fields kept. -/
lemma listStreamLoop_calls_range
    (listF : MatchFilter → Except ReqError (List MatchReference))
    (filter : MatchFilter) :
    ∀ (fuel start fin : Nat), fin = start + 100 →
      ∃ k, (listStreamLoop listF filter fuel start fin).calls
        = (List.range k).map
            (fun j => { filter with
                          BeginIndex := some (start + 100 * j),
                          EndIndex := some (start + 100 * j + 100) }) := by
  intro fuel
  induction fuel with
  | zero =>
    intro start fin hfin
    exact ⟨0, by simp [listStreamLoop]⟩
  | succ n ih =>
    intro start fin hfin
    subst hfin
    cases hcall : listF { filter with
                            BeginIndex := some start,
                            EndIndex := some (start + 100) } with
    | error e =>
      refine ⟨1, ?_⟩
      have hr1 : List.range 1 = [0] := rfl
      simp [listStreamLoop, hcall, hr1]
    | ok page =>
      by_cases hlt : page.length < 100
      · refine ⟨1, ?_⟩
        have hr1 : List.range 1 = [0] := rfl
        simp [listStreamLoop, hcall, hlt, hr1]
      · obtain ⟨k, hk⟩ := ih (start + 100) (start + 100 + 100) rfl
        refine ⟨k + 1, ?_⟩
        simp only [listStreamLoop, hcall, hlt, if_false]
        rw [hk, List.range_succ_eq_map, List.map_cons, List.map_map]
        refine List.cons_eq_cons.mpr ⟨by simp, ?_⟩
        apply List.map_congr_left
        intro j hj
        have harith : start + 100 * (j + 1) = start + 100 + 100 * j := by ring
        simp [Function.comp, harith]

/-- C10: `ListStream` overwrites the caller's begin and end indices before the
first fetch: the filter passed to the `i`-th page fetch has the window
`[100*i, 100*i+100)` regardless of the indices the caller set, with all other
filter fields passed through unchanged. -/
theorem matchStream_windowOverwrite
    (listF : MatchFilter → Except ReqError (List MatchReference))
    (filter : MatchFilter) (fuel : Nat) (i : Nat)
    (h : i < (ListStream listF filter fuel).calls.length) :
    (ListStream listF filter fuel).calls.get ⟨i, h⟩
      = { filter with
            BeginIndex := some (100 * i),
            EndIndex := some (100 * i + 100) } := by
  obtain ⟨k, hk⟩ := listStreamLoop_calls_range listF filter fuel 0 100 (by omega)
  have hk2 : (ListStream listF filter fuel).calls
      = (List.range k).map
          (fun j => { filter with
                        BeginIndex := some (0 + 100 * j),
                        EndIndex := some (0 + 100 * j + 100) }) := hk
  rw [List.get_eq_getElem, List.getElem_of_eq hk2 h]
  simp

theorem matchStream_windowOverwrite_witness :
    0 < (ListStream (serverList [⟨2⟩]) sampleFilter 1).calls.length
    ∧ (ListStream (serverList [⟨2⟩]) sampleFilter 1).calls.get ⟨0, by decide⟩
        = { sampleFilter with
              BeginIndex := some (100 * 0),
              EndIndex := some (100 * 0 + 100) } :=
  ⟨by decide,
   matchStream_windowOverwrite (serverList [⟨2⟩]) sampleFilter 1 0 (by decide)⟩

end Golio
